import Mathlib

/-!
Verification development for the guardian intrusion-prevention daemon
(repository `sr-tamim/guardian`).

The definitions below are a shallow embedding of the Windows platform
provider (`internal/platform/windows/provider.go`, the younger of the two
file generations, the one that defines `guardianRuleTag`), the Windows
event-log parser (`internal/parser/windows.go`) and the blocking
configuration (`pkg/models/config.go`, `pkg/models/models.go`).

Modelling conventions:
* Go `time.Time` values are modelled by `GoTime`: an absolute instant in
  nanoseconds since the Unix epoch plus the zone offset (in seconds) of the
  location the value carries.  `time.Duration` is an `Int` in nanoseconds.
* External commands are modelled by their effect.  The host firewall is a
  list of `FirewallRule` records; `netsh advfirewall firewall add rule`
  appends a rule, `netsh ... delete rule name=N` removes every rule named
  `N` and fails when none matches, and `netsh ... show rule name=all`
  followed by the text scan in `guardianRuleExists` is modelled directly as
  the predicate that scan computes on the rule records (description contains
  the tag and the comma-split, space-trimmed remote-IP set contains the ip).
  Whether the `add` command itself succeeds is an explicit `addSucceeds`
  argument, because the claims quantify over that failure.
* Go library functions that the source calls (`strings.Split`,
  `strings.ReplaceAll`, `strings.TrimSpace`, `strings.HasSuffix`,
  `net.ParseIP`, `net.ParseCIDR`, regular-expression capture for the four
  concrete patterns of the parser, and `time.Time.Format` for the three
  concrete layouts used) are re-implemented here on `List Char` with the
  same observable behaviour on the inputs involved; whitespace is the ASCII
  class matched by `\s`, and case folding is ASCII.
-/

namespace Guardian

/-! ## Character and string helpers (Go `strings` package behaviour) -/

/-- ASCII whitespace, the character class of `\s` in Go regular expressions
and the characters `strings.TrimSpace` strips on the inputs involved. -/
def isWS (c : Char) : Bool :=
  c = ' ' ∨ c = '\t' ∨ c = '\n' ∨ c = '\r' ∨ c = '\x0b' ∨ c = '\x0c'

def isDigitC (c : Char) : Bool := '0' ≤ c ∧ c ≤ '9'

/-- The character class `[\d\.]` of the source-address capture. -/
def isDigitDot (c : Char) : Bool := isDigitC c ∨ c = '.'

def isHexDigitC (c : Char) : Bool :=
  isDigitC c ∨ ('a' ≤ c ∧ c ≤ 'f') ∨ ('A' ≤ c ∧ c ≤ 'F')

def digitVal (c : Char) : Nat := c.toNat - '0'.toNat

def hexDigitVal (c : Char) : Nat :=
  if isDigitC c then digitVal c
  else if 'a' ≤ c ∧ c ≤ 'f' then c.toNat - 'a'.toNat + 10
  else c.toNat - 'A'.toNat + 10

/-- Decimal value of a digit list (the value `strconv.Atoi` returns; an
overflowing value is simply a large number here, which the callers compare
against small constants, giving the same accept/reject outcome). -/
def digitsVal (l : List Char) : Nat := l.foldl (fun a c => a * 10 + digitVal c) 0

def hexVal (l : List Char) : Nat := l.foldl (fun a c => a * 16 + hexDigitVal c) 0

/-- Go `strings.TrimSpace` on the character list. -/
def trimL (l : List Char) : List Char :=
  ((l.dropWhile isWS).reverse.dropWhile isWS).reverse

def goTrim (s : String) : String := String.mk (trimL s.data)

/-- Suffix test, Go `strings.HasSuffix`. -/
def listEndsWith (suf l : List Char) : Bool := suf.reverse.isPrefixOf l.reverse

/-- Substring test, Go `strings.Contains`. -/
def listContainsSub (pat l : List Char) : Bool :=
  (l.tails).any fun t => pat.isPrefixOf t

/-- Go `strings.Split` with the nonempty separator `s0 :: srest`.  The
`fuel` argument only drives structural recursion: every step consumes at
least one character, so any fuel at least the length of the scanned list
(the callers pass exactly that) never reaches the fuel-exhausted case. -/
def splitOnL (s0 : Char) (srest : List Char) : Nat → List Char → List Char → List (List Char)
  | _, [], acc => [acc.reverse]
  | 0, l, acc => [acc.reverse ++ l]
  | fuel + 1, c :: cs, acc =>
    if (s0 :: srest).isPrefixOf (c :: cs) then
      acc.reverse :: splitOnL s0 srest fuel (cs.drop srest.length) []
    else
      splitOnL s0 srest fuel cs (c :: acc)

/-- Go `strings.Split s sep` for a nonempty separator (the only way the
source calls it). -/
def goSplit (s sep : String) : List String :=
  match sep.data with
  | [] => [s]
  | s0 :: srest => (splitOnL s0 srest s.data.length s.data []).map String.mk

/-- Go `strings.ReplaceAll` (left-to-right, non-overlapping) for a nonempty
pattern `p0 :: prest`, with the same fuel discipline as `splitOnL`. -/
def replaceAllL (p0 : Char) (prest r : List Char) : Nat → List Char → List Char
  | _, [] => []
  | 0, l => l
  | fuel + 1, c :: cs =>
    if (p0 :: prest).isPrefixOf (c :: cs) then
      r ++ replaceAllL p0 prest r fuel (cs.drop prest.length)
    else
      c :: replaceAllL p0 prest r fuel cs

def goReplaceAll (s pat rep : String) : String :=
  match pat.data with
  | [] => s
  | p0 :: prest => String.mk (replaceAllL p0 prest rep.data s.data.length s.data)

/-! ## Go time values and the three `Format` layouts the source uses -/

/-- A Go `time.Time`: the absolute instant (nanoseconds since the Unix
epoch) together with the zone offset, in seconds, of the location the value
carries.  `time.Now()` produces the current instant paired with the host
timezone offset; the wall-clock fields a `Format` call renders are those of
`wall + offset`. -/
structure GoTime where
  wall : Int
  offset : Int
deriving DecidableEq, Repr

/-- Go `Time.UTC()`: same instant, offset zero. -/
def GoTime.utc (t : GoTime) : GoTime := ⟨t.wall, 0⟩

/-- Civil date from a day number relative to 1970-01-01 (the conversion
`time.Time.Date` performs, written with Euclidean division). -/
def civilFromDays (z : Int) : Int × Nat × Nat :=
  let za := z + 719468
  let era := za.ediv 146097
  let doe := (za.emod 146097).toNat
  let yoe := (doe - doe / 1460 + doe / 36524 - doe / 146096) / 365
  let y : Int := (yoe : Int) + era * 400
  let doy := doe - (365 * yoe + yoe / 4 - yoe / 100)
  let mp := (5 * doy + 2) / 153
  let d := doy - (153 * mp + 2) / 5 + 1
  let m := if mp < 10 then mp + 3 else mp - 9
  (if m ≤ 2 then y + 1 else y, m, d)

def padZeros (w : Nat) (s : String) : String :=
  String.mk (List.replicate (w - s.length) '0') ++ s

def pad2 (n : Nat) : String := padZeros 2 (toString n)

def pad3 (n : Nat) : String := padZeros 3 (toString n)

def pad4Int (y : Int) : String :=
  if y < 0 then "-" ++ padZeros 4 (toString (-y).toNat)
  else padZeros 4 (toString y.toNat)

/-- The wall-clock fields of a `GoTime` in its own location:
(year, month, day, second-of-day, nanosecond-of-second). -/
def wallFields (t : GoTime) : (Int × Nat × Nat) × Nat × Nat :=
  let totalNs := t.wall + t.offset * 1000000000
  let secs := totalNs.ediv 1000000000
  let ns := (totalNs.emod 1000000000).toNat
  let days := secs.ediv 86400
  let sod := (secs.emod 86400).toNat
  (civilFromDays days, sod, ns)

/-- The body of the layout `2006-01-02T15:04:05.000` (everything before the
literal `Z`), rendered from the wall-clock fields of `t`. -/
def formatQueryTimeNoZ (t : GoTime) : String :=
  let f := wallFields t
  let ymd := f.1
  let sod := f.2.1
  let ns := f.2.2
  pad4Int ymd.1 ++ "-" ++ pad2 ymd.2.1 ++ "-" ++ pad2 ymd.2.2 ++ "T" ++
    pad2 (sod / 3600) ++ ":" ++ pad2 (sod / 60 % 60) ++ ":" ++ pad2 (sod % 60) ++
    "." ++ pad3 (ns / 1000000)

/-- Go `t.Format "2006-01-02T15:04:05.000Z"`: in this layout the final `Z`
is a literal character (it is not followed by `07:00`/`0700`), so the
rendering is the wall clock of `t` followed by `Z`. -/
def formatQueryTime (t : GoTime) : String := formatQueryTimeNoZ t ++ "Z"

/-- Go `t.Format "20060102150405"`, the `{timestamp}` placeholder value of
`GenerateRuleName`. -/
def formatRuleTimestamp (t : GoTime) : String :=
  let f := wallFields t
  let ymd := f.1
  let sod := f.2.1
  pad4Int ymd.1 ++ pad2 ymd.2.1 ++ pad2 ymd.2.2 ++
    pad2 (sod / 3600) ++ pad2 (sod / 60 % 60) ++ pad2 (sod % 60)

/-! ## Blocking configuration and rule names (`pkg/models/config.go`) -/

/-- The `BlockingConfig` fields the modelled code reads. -/
structure BlockingConfig where
  failureThreshold : Int
  blockDuration : Int
  whitelistedIPs : List String
  cleanupInterval : Int
  ruleNameTemplate : String
deriving DecidableEq, Repr

/-- `BlockingConfig.GenerateRuleName`: substitute the placeholders of the
template (default `Guardian - \x7btimestamp\x7d - \x7bip\x7d`), where
`{timestamp}` is `time.Now()` rendered as `20060102150405`.  The call to
`time.Now()` inside the source function is the explicit `now` argument. -/
def generateRuleName (b : BlockingConfig) (ip service : String) (now : GoTime) : String :=
  let template := if b.ruleNameTemplate = "" then "Guardian - \x7btimestamp\x7d - \x7bip\x7d"
    else b.ruleNameTemplate
  let timestamp := formatRuleTimestamp now
  let t1 := goReplaceAll template "\x7bapp\x7d" "Guardian"
  let t2 := goReplaceAll t1 "\x7btimestamp\x7d" timestamp
  let t3 := goReplaceAll t2 "\x7bip\x7d" ip
  goReplaceAll t3 "\x7bservice\x7d" service

/-! ## `net.ParseIP`, `net.ParseCIDR` and `IPNet.Contains` -/

/-- A parsed IP address: dotted-quad IPv4 or eight 16-bit IPv6 groups. -/
inductive GoIP where
  | v4 (a b c d : Nat)
  | v6 (gs : List Nat)
deriving DecidableEq, Repr

/-- One dotted-quad field: nonempty, all digits, no leading zero
(rejected since Go 1.17), at most three digits, value at most 255. -/
def parseV4Part (l : List Char) : Option Nat :=
  if l = [] then none
  else if ¬ l.all isDigitC then none
  else if 1 < l.length ∧ l.head? = some '0' then none
  else if 3 < l.length then none
  else if digitsVal l ≤ 255 then some (digitsVal l) else none

def parseV4Quad (l : List Char) : Option GoIP :=
  match (splitOnL '.' [] l.length l []).map parseV4Part with
  | [some a, some b, some c, some d] => some (.v4 a b c d)
  | _ => none

/-- One IPv6 group: one to four hex digits. -/
def parseHexGroup (l : List Char) : Option Nat :=
  if l = [] ∨ 4 < l.length ∨ ¬ l.all isHexDigitC then none
  else some (hexVal l)

/-- Parse a colon-separated group list, allowing a trailing dotted-quad
(which contributes two 16-bit groups), as `net.ParseIP` does. -/
def parseV6Groups (l : List Char) : Option (List Nat) :=
  if l = [] then some []
  else
    let parts := splitOnL ':' [] l.length l []
    let n := parts.length
    (parts.enum.mapM fun pi =>
      if pi.1 = n - 1 ∧ pi.2.any (· = '.') then
        match parseV4Quad pi.2 with
        | some (GoIP.v4 a b c d) => some [a * 256 + b, c * 256 + d]
        | _ => none
      else
        (parseHexGroup pi.2).map ([·])).map List.flatten

/-- The essentials of `net.ParseIP`'s IPv6 branch: at most one `::`, which
expands to the zero groups needed to reach eight. -/
def parseV6 (l : List Char) : Option GoIP :=
  match splitOnL ':' [':'] l.length l [] with
  | [whole] =>
    match parseV6Groups whole with
    | some gs => if gs.length = 8 then some (.v6 gs) else none
    | none => none
  | [lft, rgt] =>
    match parseV6Groups lft, parseV6Groups rgt with
    | some gl, some gr =>
      if gl.length + gr.length ≤ 7 then
        some (.v6 (gl ++ List.replicate (8 - gl.length - gr.length) 0 ++ gr))
      else none
    | _, _ => none
  | _ => none

/-- Go `net.ParseIP`: the IPv4 branch is taken when a `.` appears before
any `:`, the IPv6 branch when a `:` appears. -/
def goParseIP (s : String) : Option GoIP :=
  if s.data.any (· = ':') then parseV6 s.data
  else if s.data.any (· = '.') then parseV4Quad s.data
  else none

def ipBits : GoIP → Nat
  | .v4 _ _ _ _ => 32
  | .v6 _ => 128

def ipVal : GoIP → Nat
  | .v4 a b c d => ((a * 256 + b) * 256 + c) * 256 + d
  | .v6 gs => gs.foldl (fun acc g => acc * 65536 + g) 0

/-- A parsed CIDR network, as returned by `net.ParseCIDR`. -/
structure GoIPNet where
  base : GoIP
  maskBits : Nat
deriving DecidableEq, Repr

/-- Go `net.ParseCIDR`: address part before the first `/`, decimal prefix
length (no leading zeros) bounded by the address width. -/
def goParseCIDR (s : String) : Option GoIPNet :=
  match splitOnL '/' [] s.data.length s.data [] with
  | [addr, mask] =>
    match goParseIP (String.mk addr) with
    | none => none
    | some ip =>
      if mask = [] ∨ ¬ mask.all isDigitC ∨ (1 < mask.length ∧ mask.head? = some '0') then none
      else if digitsVal mask ≤ ipBits ip then some ⟨ip, digitsVal mask⟩ else none
  | _ => none

/-- Go `IPNet.Contains`: same family and the first `maskBits` bits agree
(mapped-IPv4 forms are not modelled; no claim involves them). -/
def GoIPNet.containsIP (net : GoIPNet) (ip : GoIP) : Bool :=
  ipBits net.base = ipBits ip ∧
    ipVal ip / 2 ^ (ipBits ip - net.maskBits) = ipVal net.base / 2 ^ (ipBits net.base - net.maskBits)

/-! ## The host firewall and the provider state -/

/-- One host firewall rule, the record behind `netsh advfirewall firewall
show rule name=all` output: rule name, description line, comma-separated
remote-IP entries. -/
structure FirewallRule where
  name : String
  description : String
  remoteIPs : List String
deriving DecidableEq, Repr

/-- Effect of `netsh advfirewall firewall delete rule name=N`: deletes every
rule with that name, and fails (`none`) when no rule matches. -/
def deleteRule (rn : String) (fw : List FirewallRule) : Option (List FirewallRule) :=
  if fw.any (fun r => r.name = rn) then some (fw.filter fun r => ¬ r.name = rn) else none

/-- The constant `guardianRuleTag` of the provider. -/
def guardianRuleTag : String := "GuardianTag=Guardian"

/-- The description `BlockIP` passes to `netsh ... add rule`. -/
def blockRuleDescription : String :=
  "Guardian IPS - Blocked due to failed login attempts (" ++ guardianRuleTag ++ ")"

/-- `WindowsProvider.guardianRuleExists`: scan the firewall listing for a
rule whose description contains `guardianRuleTag` and whose remote-IP set
contains `ip` after trimming each comma-separated entry. -/
def guardianRuleExists (fw : List FirewallRule) (ip : String) : Bool :=
  fw.any fun r =>
    listContainsSub guardianRuleTag.data r.description.data ∧
      r.remoteIPs.any fun cand => goTrim cand = ip

/-- `models.BlockRecord`. -/
structure BlockRecord where
  ip : String
  blockedAt : Int
  expiresAt : Option Int
  reason : String
  service : String
  attackCount : Int
  isActive : Bool
  unblockedAt : Option Int
deriving DecidableEq, Repr

/-- The provider's in-memory state: the `blockedIPs` map (an association
list keyed by IP) and the `totalBlocks` counter. -/
structure ProviderState where
  blockedIPs : List (String × BlockRecord)
  totalBlocks : Nat
deriving DecidableEq, Repr

/-- Lookup in the `blockedIPs` map. -/
def lookupIP (ip : String) : List (String × BlockRecord) → Option BlockRecord
  | [] => none
  | (k, v) :: t => if k = ip then some v else lookupIP ip t

/-- Go map assignment `w.blockedIPs[ip] = rec`. -/
def setIP (ip : String) (v : BlockRecord) : List (String × BlockRecord) → List (String × BlockRecord)
  | [] => [(ip, v)]
  | (k, w) :: t => if k = ip then (ip, v) :: t else (k, w) :: setIP ip v t

/-- Result of one provider operation: the returned error (if any) and the
state of the in-memory table and of the host firewall afterwards. -/
inductive GuardianErr where
  | invalidIP
  | ipAlreadyBlocked
  | ipNotBlocked
  | firewallOperation
deriving DecidableEq, Repr

deriving instance DecidableEq for Except

structure StepResult where
  res : Except GuardianErr Unit
  st : ProviderState
  fw : List FirewallRule
deriving DecidableEq, Repr

/-- `WindowsProvider.BlockIP ip duration reason` at instant `now`, with
`addSucceeds` telling whether the external `netsh ... add rule` command
succeeds.  Step for step: validate the IP; fail `ipAlreadyBlocked` when an
active record exists; fail `ipAlreadyBlocked` when a tagged firewall rule
for `ip` already exists; generate the rule name from the template; run the
add command, failing `firewallOperation` with no state recorded; otherwise
record the block (`expiresAt` only for a positive duration) and advance
`totalBlocks`. -/
def blockIP (cfg : BlockingConfig) (st : ProviderState) (fw : List FirewallRule)
    (now : GoTime) (addSucceeds : Bool) (ip : String) (duration : Int) (reason : String) :
    StepResult :=
  if (goParseIP ip).isNone then ⟨.error .invalidIP, st, fw⟩
  else if (match lookupIP ip st.blockedIPs with
           | some existing => existing.isActive
           | none => false) then ⟨.error .ipAlreadyBlocked, st, fw⟩
  else if guardianRuleExists fw ip then ⟨.error .ipAlreadyBlocked, st, fw⟩
  else
    let ruleName := generateRuleName cfg ip "RDP" now
    if ¬ addSucceeds then ⟨.error .firewallOperation, st, fw⟩
    else
      let fw' := fw ++ [⟨ruleName, blockRuleDescription, [ip]⟩]
      let expiresAt := if 0 < duration then some (now.wall + duration) else none
      let newRecord : BlockRecord :=
        ⟨ip, now.wall, expiresAt, reason, "RDP", 1, true, none⟩
      ⟨.ok (), ⟨setIP ip newRecord st.blockedIPs, st.totalBlocks + 1⟩, fw'⟩

/-- `WindowsProvider.UnblockIP ip` at instant `now`.  The rule name passed
to `netsh ... delete rule` is regenerated from the template at `now` (the
record stores no rule name). -/
def unblockIP (cfg : BlockingConfig) (st : ProviderState) (fw : List FirewallRule)
    (now : GoTime) (ip : String) : StepResult :=
  match lookupIP ip st.blockedIPs with
  | none => ⟨.error .ipNotBlocked, st, fw⟩
  | some r =>
    if ¬ r.isActive then ⟨.error .ipNotBlocked, st, fw⟩
    else
      let ruleName := generateRuleName cfg ip "RDP" now
      match deleteRule ruleName fw with
      | none => ⟨.error .firewallOperation, st, fw⟩
      | some fw' =>
        let r' := { r with isActive := false, unblockedAt := some now.wall }
        ⟨.ok (), ⟨setIP ip r' st.blockedIPs, st.totalBlocks⟩, fw'⟩

/-- `WindowsProvider.IsBlocked ip` at wall-clock instant `noww`:
false when no record exists or the record is expired, else the record's
active flag. -/
def isBlocked (st : ProviderState) (noww : Int) (ip : String) : Bool :=
  match lookupIP ip st.blockedIPs with
  | none => false
  | some r =>
    match r.expiresAt with
    | some e => if e < noww then false else r.isActive
    | none => r.isActive

/-- The per-record body of `WindowsProvider.cleanupExpiredRules` applied to
the entries in order, threading the firewall state: an active record whose
`expiresAt` lies strictly before `now` has a delete issued for the rule
name regenerated at `now`; only on delete success is the record marked
inactive. -/
def cleanupEntries (cfg : BlockingConfig) (now : GoTime) :
    List (String × BlockRecord) → List FirewallRule →
    List (String × BlockRecord) × List FirewallRule
  | [], fw => ([], fw)
  | (ip, r) :: rest, fw =>
    if r.isActive then
      match r.expiresAt with
      | some e =>
        if e < now.wall then
          let ruleName := generateRuleName cfg ip "RDP" now
          match deleteRule ruleName fw with
          | some fw' =>
            let r' := { r with isActive := false, unblockedAt := some now.wall }
            let rest' := cleanupEntries cfg now rest fw'
            ((ip, r') :: rest'.1, rest'.2)
          | none =>
            let rest' := cleanupEntries cfg now rest fw
            ((ip, r) :: rest'.1, rest'.2)
        else
          let rest' := cleanupEntries cfg now rest fw
          ((ip, r) :: rest'.1, rest'.2)
      | none =>
        let rest' := cleanupEntries cfg now rest fw
        ((ip, r) :: rest'.1, rest'.2)
    else
      let rest' := cleanupEntries cfg now rest fw
      ((ip, r) :: rest'.1, rest'.2)

/-- `WindowsProvider.cleanupExpiredRules` (the sweeper body) at instant
`now`. -/
def cleanupExpiredRules (cfg : BlockingConfig) (now : GoTime)
    (st : ProviderState) (fw : List FirewallRule) : ProviderState × List FirewallRule :=
  let r := cleanupEntries cfg now st.blockedIPs fw
  (⟨r.1, st.totalBlocks⟩, r.2)

/-! ## The event-log parser (`internal/parser/windows.go`) -/

/-- Leftmost match of a pattern of the shape `LIT\s+(CLS+)`, the shape of
all four capture patterns of `WindowsEventLogParser`: at the first position
where the literal is followed by at least one whitespace character and at
least one character of the class, return the greedy class run. -/
def findCapture (lit : List Char) (cls : Char → Bool) : List Char → Option (List Char)
  | [] => none
  | c :: cs =>
    (if lit.isPrefixOf (c :: cs) then
      let rest := (c :: cs).drop lit.length
      let ws := rest.takeWhile isWS
      let cap := (rest.dropWhile isWS).takeWhile cls
      if ¬ ws.isEmpty ∧ ¬ cap.isEmpty then some cap else none
    else none).orElse fun _ => findCapture lit cls cs

/-- The capture of `Event ID:\s+(\d+)` as the number `strconv.Atoi`
yields. -/
def eventIDField (line : String) : Option Nat :=
  (findCapture "Event ID:".data isDigitC line.data).map digitsVal

/-- The capture of `Source Network Address:\s+([\d\.]+)` after
`strings.TrimSpace`. -/
def sourceAddrField (line : String) : Option String :=
  (findCapture "Source Network Address:".data isDigitDot line.data).map
    fun l => String.mk (trimL l)

/-- The capture of `Account Name:\s+([^\r\n\s]+)` after
`strings.TrimSpace` (the class `[^\r\n\s]` is exactly non-whitespace). -/
def accountNameField (line : String) : Option String :=
  (findCapture "Account Name:".data (fun c => ¬ isWS c) line.data).map
    fun l => String.mk (trimL l)

/-- `models.Severity`. -/
inductive Severity where
  | low
  | medium
  | high
  | critical
deriving DecidableEq, Repr

def lowerStr (s : String) : String := String.mk (s.data.map Char.toLower)

/-- Case-insensitive equality, Go `strings.EqualFold` (ASCII fold). -/
def eqFold (a b : String) : Bool := lowerStr a = lowerStr b

/-- `WindowsEventLogParser.determineSeverity`. -/
def determineSeverity (username _ip : String) : Severity :=
  if ["administrator", "admin", "root", "sa"].any (fun a => eqFold username a) then .high
  else if listEndsWith "service".data (lowerStr username).data ∨
      listEndsWith "svc".data (lowerStr username).data then .medium
  else if ["user", "test", "guest", "demo"].any (fun a => eqFold username a) then .medium
  else .low

/-- The fields of `models.AttackAttempt` that the modelled pipeline reads.
The timestamp field (the `Time Created:` capture run through `time.Parse`,
with the current clock as fallback) is orthogonal to every claim and is
kept as the raw capture. -/
structure AttackAttempt where
  ip : String
  service : String
  username : String
  severity : Severity
  timestampText : Option String
deriving DecidableEq, Repr

/-- The capture of `Time Created:\s+([^\r\n]+)` (greedy whitespace,
then the run of characters other than CR/LF). -/
def timeCreatedField (line : String) : Option String :=
  (findCapture "Time Created:".data (fun c => ¬ (c = '\r' ∨ c = '\n')) line.data).map
    fun l => String.mk l

/-- `WindowsEventLogParser.ParseLine`: `none` is the Go `nil, err` result.
Order as in the source: event-ID capture and the 4625 check, source-address
capture, the invalid/local sentinel check, username extraction with the
system-account normalization, severity. -/
def parseLine (line : String) : Option AttackAttempt :=
  match eventIDField line with
  | none => none
  | some eid =>
    if ¬ eid = 4625 then none
    else
      match sourceAddrField line with
      | none => none
      | some sourceIP =>
        if sourceIP = "" ∨ sourceIP = "-" ∨ sourceIP = "127.0.0.1" ∨ sourceIP = "::1" then none
        else
          let username :=
            match accountNameField line with
            | none => "unknown"
            | some u =>
              if u = "-" ∨ u = "" ∨ listEndsWith "$".data u.data then "system_account" else u
          some ⟨sourceIP, "RDP", username, determineSeverity username sourceIP,
            timeCreatedField line⟩

/-- `WindowsEventLogParser.IsRDPEvent`: any of the four indicator patterns
matches somewhere in the block (`Logon Type:\s+3`, `Logon Type:\s+10`, the
literals `Source Network Address` and `Event ID: 4625`). -/
def isRDPEvent (line : String) : Bool :=
  (findCapture "Logon Type:".data (fun c => c = '3') line.data).isSome ∨
    (findCapture "Logon Type:".data (fun c => c = '1' ∨ c = '0') line.data).isSome ∨
    listContainsSub "Source Network Address".data line.data ∨
    listContainsSub "Event ID: 4625".data line.data

/-! ## The scan pipeline of `parseEventLogOutput` (events == nil branch) -/

/-- `WindowsProvider.isWhitelistedIP`: parse the candidate, then match it
against each configured entry — CIDR containment for entries holding a
`/`, literal string equality otherwise. -/
def isWhitelistedIP (cfg : BlockingConfig) (ip : String) : Bool :=
  match goParseIP ip with
  | none => false
  | some parsed =>
    cfg.whitelistedIPs.any fun entry =>
      let candidate := goTrim entry
      if candidate = "" then false
      else if candidate.data.any (· = '/') then
        match goParseCIDR candidate with
        | some network => network.containsIP parsed
        | none => false
      else candidate = ip

/-- The per-block step of the counting loop: a block that is non-blank
after trimming, passes `IsRDPEvent`, and parses, contributes its source IP.
Applied to every block, this is exactly the multiset `attackCounts` (and
`uniqueIPs`) is built from. -/
def scanIPs (blocks : List String) : List String :=
  (blocks.filter fun b => ¬ goTrim b = "").filterMap fun b =>
    if isRDPEvent b then (parseLine b).map (fun a => a.ip) else none

/-- The count `attackCounts[ip]` after one scan over `blocks`. -/
def attackCount (blocks : List String) (ip : String) : Nat :=
  (scanIPs blocks).count ip

/-- The effective threshold: `FailureThreshold`, floored to 1. -/
def effectiveThreshold (cfg : BlockingConfig) : Int :=
  if cfg.failureThreshold ≤ 0 then 1 else cfg.failureThreshold

/-- The set of IPs for which the threshold loop of `parseEventLogOutput`
invokes `BlockIP` in one scan: count at least the threshold and not
whitelisted.  (Go iterates the `attackCounts` map in unspecified order;
the calls are represented by this duplicate-free list, whose membership is
what the claims are about.) -/
def scanBlockCalls (cfg : BlockingConfig) (blocks : List String) : List String :=
  (scanIPs blocks).dedup.filter fun ip =>
    effectiveThreshold cfg ≤ (attackCount blocks ip : Int) ∧ ¬ isWhitelistedIP cfg ip

/-- `WindowsProvider.parseEventLogOutput` with `events == nil`:
split the wevtutil output on `Event[` and run the counting and threshold
loops; the result is the list of IPs passed to `BlockIP`. -/
def parseEventLogOutput (cfg : BlockingConfig) (output : String) : List String :=
  scanBlockCalls cfg (goSplit output "Event[")

/-- One `BlockIP` call of the threshold loop, threading the provider and
firewall state. -/
def scanBlockStep (cfg : BlockingConfig) (now : GoTime)
    (acc : ProviderState × List FirewallRule) (ip : String) :
    ProviderState × List FirewallRule :=
  let r := blockIP cfg acc.1 acc.2 now true ip cfg.blockDuration "threshold exceeded"
  (r.st, r.fw)

/-- Folding the resulting `BlockIP` calls over the provider state
(each call uses `BlockDuration` from the config). -/
def runScanBlocks (cfg : BlockingConfig) (now : GoTime) (st : ProviderState)
    (fw : List FirewallRule) (output : String) : ProviderState × List FirewallRule :=
  (parseEventLogOutput cfg output).foldl (scanBlockStep cfg now) (st, fw)

/-! ## The wevtutil query (`queryRecentEvents`) -/

/-- The lower-bound string `sinceStr`: `since.UTC().Format
"2006-01-02T15:04:05.000Z"`. -/
def sinceStringOf (since : GoTime) : String := formatQueryTime since.utc

/-- The XPath filter `queryRecentEvents` hands to wevtutil. -/
def wevtutilQueryFilter (since : GoTime) : String :=
  "*[System[EventID=4625 and TimeCreated[@SystemTime>='" ++ sinceStringOf since ++ "']]]"

/-- Iterated sweeper runs: fold `cleanupExpiredRules` over a list of sweep
instants. -/
def sweepMany (cfg : BlockingConfig) (sweeps : List GoTime)
    (p : ProviderState × List FirewallRule) : ProviderState × List FirewallRule :=
  sweeps.foldl (fun q t => cleanupExpiredRules cfg t q.1 q.2) p

/-- The boolean the amended C3 statement counts with: the block is
non-blank, passes `IsRDPEvent`, and parses to the given source IP. -/
def countsAsAttack (ip : String) (b : String) : Bool :=
  if goTrim b = "" then false
  else if isRDPEvent b then
    match parseLine b with
    | some a => a.ip = ip
    | none => false
  else false

/-! ## Concrete inputs used by the counterexamples and witnesses -/

/-- The `Blocking` section of `models.DefaultConfig` (durations in
nanoseconds). -/
def defaultBlockingCfg : BlockingConfig :=
  ⟨3, 120000000000, ["127.0.0.1", "::1", "192.168.0.0/16", "10.0.0.0/8"],
    30000000000, "Guardian - \x7btimestamp\x7d - \x7bip\x7d"⟩

/-- A pre-existing tagged firewall rule (the S4 seed of the spec), as left
behind by a previous run. -/
def preseededFw : List FirewallRule :=
  [⟨"Guardian - 20240101000000 - 198.51.100.9",
    "Guardian IPS - Blocked due to failed login attempts (GuardianTag=Guardian)",
    ["198.51.100.9"]⟩]

/-- One wevtutil text block for a failed logon from 198.51.100.7. -/
def sampleBlock : String :=
  "1] Event ID: 4625\n  Logon Type: 3\n  Account Name: intruder\n  Source Network Address: 198.51.100.7\n  Time Created: 2024-01-01T00:00:00.000000000Z"

/-- A wevtutil output in which the very same record (identical source IP,
timestamp and username) appears twice. -/
def dupOutput : String := "Event[" ++ sampleBlock ++ "Event[" ++ sampleBlock

/-- One wevtutil text block for a failed logon from the whitelisted
10.0.0.7. -/
def wlBlock : String :=
  "1] Event ID: 4625\n  Logon Type: 10\n  Account Name: root\n  Source Network Address: 10.0.0.7"

/-- Four failure events (past the default threshold of three) from the
whitelisted address in one output. -/
def wlOutput : String :=
  String.join (List.replicate 4 ("Event[" ++ wlBlock))

/-- A 4625 record whose source-address capture is not a valid IP
address. -/
def badIPLine : String :=
  "1] Event ID: 4625\n  Account Name: eve\n  Source Network Address: 1.2.3.999"

/-- A 4625 record whose source address is the loopback sentinel. -/
def loopbackLine : String :=
  "1] Event ID: 4625\n  Account Name: eve\n  Source Network Address: 127.0.0.1"

/-- A 4625 record with the `-` account-name marker. -/
def dashUserLine : String :=
  "1] Event ID: 4625\n  Account Name: -\n  Source Network Address: 203.0.113.9"

/-- A 4625 record with a machine-account name (trailing `$`). -/
def machineUserLine : String :=
  "1] Event ID: 4625\n  Account Name: SERVER01$\n  Source Network Address: 203.0.113.9"

/-- The parse of `machineUserLine`. -/
def machineUserAttempt : AttackAttempt :=
  ⟨"203.0.113.9", "RDP", "system_account", .low, none⟩

/-- An expired but not-yet-swept active record (expiry instant 100). -/
def expiredActiveRecord : BlockRecord :=
  ⟨"203.0.113.7", 0, some 100, "r", "RDP", 1, true, none⟩

/-- A successful install of 203.0.113.5 for 60 s at 1970-01-01T00:00:00Z
on a fresh provider and an empty firewall. -/
def c2InstallStep : StepResult :=
  blockIP defaultBlockingCfg ⟨[], 0⟩ [] ⟨0, 0⟩ true "203.0.113.5" 60000000000 "threshold"

/-- The sweep instant three minutes later, well past the expiry. -/
def c2SweepTime : GoTime := ⟨180000000000, 0⟩

/-- The sweeper pass over the installed block at `c2SweepTime`. -/
def c2SweepOut : ProviderState × List FirewallRule :=
  cleanupExpiredRules defaultBlockingCfg c2SweepTime c2InstallStep.st c2InstallStep.fw

/-! ## Supporting lemmas -/

theorem lookupIP_setIP_self (ip : String) (v : BlockRecord) :
    ∀ l : List (String × BlockRecord), lookupIP ip (setIP ip v l) = some v := by
  intro l
  induction l with
  | nil => simp [setIP, lookupIP]
  | cons hd t ih =>
    obtain ⟨k, w⟩ := hd
    by_cases hk : k = ip
    · simp [setIP, hk, lookupIP]
    · simp [setIP, hk, lookupIP, ih]

theorem lookupIP_setIP_ne (ip k : String) (v : BlockRecord) (h : ¬ k = ip) :
    ∀ l : List (String × BlockRecord), lookupIP ip (setIP k v l) = lookupIP ip l := by
  intro l
  induction l with
  | nil => simp [setIP, lookupIP, h]
  | cons hd t ih =>
    obtain ⟨k', w⟩ := hd
    by_cases hk : k' = k
    · subst hk
      simp [setIP, lookupIP, h]
    · simp [setIP, hk, lookupIP, ih]

theorem mem_takeWhile_cls (p : Char → Bool) :
    ∀ l : List Char, ∀ c ∈ l.takeWhile p, p c = true := by
  intro l
  induction l with
  | nil => simp
  | cons a t ih =>
    by_cases hp : p a
    · simp only [List.takeWhile_cons, hp, if_true, List.mem_cons]
      rintro c (rfl | hc)
      · exact hp
      · exact ih c hc
    · simp [List.takeWhile_cons, hp]

/-- A successful capture is a nonempty run of class characters. -/
theorem findCapture_shape (lit : List Char) (cls : Char → Bool) :
    ∀ l cap : List Char, findCapture lit cls l = some cap →
      cap ≠ [] ∧ ∀ c ∈ cap, cls c = true := by
  intro l
  induction l with
  | nil => intro cap h; simp [findCapture] at h
  | cons c cs ih =>
    intro cap h
    rw [findCapture] at h
    by_cases hp : lit.isPrefixOf (c :: cs)
    · simp only [hp, if_true] at h
      by_cases hcond : ¬ (((c :: cs).drop lit.length).takeWhile isWS).isEmpty ∧
          ¬ ((((c :: cs).drop lit.length).dropWhile isWS).takeWhile cls).isEmpty
      · simp only [hcond, if_true, Option.orElse] at h
        obtain ⟨-, hcap⟩ := hcond
        cases h
        refine ⟨fun hnil => hcap (by simp [hnil]), ?_⟩
        intro x hx
        exact mem_takeWhile_cls cls _ x hx
      · simp only [hcond, if_false, Option.orElse] at h
        exact ih cap h
    · simp only [hp, if_false, Option.orElse] at h
      exact ih cap h

theorem trimL_eq_self (l : List Char) (h : ∀ c ∈ l, isWS c = false) : trimL l = l := by
  have h1 : l.dropWhile isWS = l := by
    cases l with
    | nil => rfl
    | cons a t => simp [List.dropWhile_cons, h a (by simp)]
  have h2 : l.reverse.dropWhile isWS = l.reverse := by
    cases hr : l.reverse with
    | nil => rfl
    | cons a t =>
      have ha : a ∈ l := by
        rw [← List.mem_reverse, hr]
        simp
      simp [List.dropWhile_cons, h a ha]
  unfold trimL
  rw [h1, h2, List.reverse_reverse]

/-- A digit or dot is not whitespace. -/
theorem isWS_false_of_isDigitDot (c : Char) (h : isDigitDot c = true) : isWS c = false := by
  unfold isDigitDot isDigitC at h
  have hd := of_decide_eq_true h
  have hnot : ¬ (c = ' ' ∨ c = '\t' ∨ c = '\n' ∨ c = '\r' ∨ c = '\x0b' ∨ c = '\x0c') := by
    rintro (rfl | rfl | rfl | rfl | rfl | rfl) <;> revert hd <;> decide
  unfold isWS
  exact decide_eq_false hnot

/-- The source-address capture is a nonempty digits-and-dots string. -/
theorem sourceAddrField_shape (line : String) (s : String)
    (h : sourceAddrField line = some s) :
    ¬ s.data = [] ∧ ∀ c ∈ s.data, isDigitDot c = true := by
  unfold sourceAddrField at h
  rw [Option.map_eq_some'] at h
  obtain ⟨cap, hcap, hs⟩ := h
  obtain ⟨hne, hall⟩ := findCapture_shape _ _ _ _ hcap
  have htrim : trimL cap = cap :=
    trimL_eq_self cap fun c hc => isWS_false_of_isDigitDot c (hall c hc)
  subst hs
  rw [htrim]
  exact ⟨hne, hall⟩

/-- The account-name capture is a nonempty non-whitespace string. -/
theorem accountNameField_shape (line : String) (s : String)
    (h : accountNameField line = some s) :
    ¬ s.data = [] ∧ ∀ c ∈ s.data, isWS c = false := by
  unfold accountNameField at h
  rw [Option.map_eq_some'] at h
  obtain ⟨cap, hcap, hs⟩ := h
  obtain ⟨hne, hall⟩ := findCapture_shape _ _ _ _ hcap
  have hall' : ∀ c ∈ cap, isWS c = false := by
    intro c hc
    have := hall c hc
    simpa using this
  have htrim : trimL cap = cap := trimL_eq_self cap hall'
  subst hs
  rw [htrim]
  exact ⟨hne, hall'⟩

theorem scanIPs_append (b1 b2 : List String) :
    scanIPs (b1 ++ b2) = scanIPs b1 ++ scanIPs b2 := by
  unfold scanIPs
  rw [List.filter_append, List.filterMap_append]

theorem scanIPs_count_eq_countP (ip : String) :
    ∀ blocks : List String, (scanIPs blocks).count ip = blocks.countP (countsAsAttack ip) := by
  intro blocks
  induction blocks with
  | nil => rfl
  | cons b bs ih =>
    unfold scanIPs at ih ⊢
    simp only [decide_not] at ih
    rw [List.countP_cons]
    by_cases hb : goTrim b = ""
    · simp [List.filter_cons, hb, countsAsAttack, ih]
    · by_cases hr : isRDPEvent b
      · cases hp : parseLine b with
        | none => simp [List.filter_cons, hb, hr, hp, countsAsAttack, ih]
        | some a =>
          by_cases hip : a.ip = ip
          · simp [List.filter_cons, hb, hr, hp, countsAsAttack, ih, hip, List.count_cons]
          · simp [List.filter_cons, hb, hr, hp, countsAsAttack, ih, hip, List.count_cons]
      · simp [List.filter_cons, hb, hr, countsAsAttack, ih]

theorem isBlocked_of_permanent_active (st : ProviderState) (ip : String) (r : BlockRecord)
    (h : lookupIP ip st.blockedIPs = some r) (hexp : r.expiresAt = none)
    (hact : r.isActive = true) : ∀ t, isBlocked st t ip = true := by
  intro t
  unfold isBlocked
  rw [h]
  simp [hexp, hact]

theorem cleanupEntries_permanent (cfg : BlockingConfig) (t : GoTime) (ip : String)
    (r : BlockRecord) (hexp : r.expiresAt = none) :
    ∀ (l : List (String × BlockRecord)) (fw : List FirewallRule),
      lookupIP ip l = some r →
      lookupIP ip (cleanupEntries cfg t l fw).1 = some r := by
  intro l
  induction l with
  | nil => intro fw h; simp [lookupIP] at h
  | cons hd rest ih =>
    intro fw h
    obtain ⟨k, v⟩ := hd
    by_cases hk : k = ip
    · rw [lookupIP, if_pos hk] at h
      cases h
      cases hv : r.isActive <;>
        simp [cleanupEntries, hv, hexp, lookupIP, hk]
    · rw [lookupIP, if_neg hk] at h
      cases hv : v.isActive
      · simp only [cleanupEntries, hv, Bool.false_eq_true, if_false]
        rw [lookupIP, if_neg hk]
        exact ih fw h
      · cases hvexp : v.expiresAt with
        | none =>
          simp only [cleanupEntries, hv, if_true, hvexp]
          rw [lookupIP, if_neg hk]
          exact ih fw h
        | some e =>
          by_cases he : e < t.wall
          · simp only [cleanupEntries, hv, if_true, hvexp, he, if_pos]
            cases hd : deleteRule (generateRuleName cfg k "RDP" t) fw with
            | none =>
              simp only [hd]
              rw [lookupIP, if_neg hk]
              exact ih fw h
            | some fw' =>
              simp only [hd]
              rw [lookupIP, if_neg hk]
              exact ih fw' h
          · simp only [cleanupEntries, hv, if_true, hvexp, he, if_neg, if_false]
            rw [lookupIP, if_neg hk]
            exact ih fw h

theorem sweepMany_permanent (cfg : BlockingConfig) (ip : String) (r : BlockRecord)
    (hexp : r.expiresAt = none) :
    ∀ (sweeps : List GoTime) (p : ProviderState × List FirewallRule),
      lookupIP ip p.1.blockedIPs = some r →
      lookupIP ip (sweepMany cfg sweeps p).1.blockedIPs = some r := by
  intro sweeps
  induction sweeps with
  | nil => intro p h; exact h
  | cons t ts ih =>
    intro p h
    unfold sweepMany at ih ⊢
    rw [List.foldl_cons]
    exact ih _ (cleanupEntries_permanent cfg t ip r hexp _ _ h)

theorem cleanupEntries_single_permanent (cfg : BlockingConfig) (t : GoTime) (ip : String)
    (r : BlockRecord) (fw : List FirewallRule) (hexp : r.expiresAt = none) :
    cleanupEntries cfg t [(ip, r)] fw = ([(ip, r)], fw) := by
  cases hv : r.isActive <;> simp [cleanupEntries, hv, hexp]

theorem sweepMany_single_permanent (cfg : BlockingConfig) (ip : String) (r : BlockRecord)
    (n : Nat) (fw : List FirewallRule) (hexp : r.expiresAt = none) :
    ∀ sweeps : List GoTime, sweepMany cfg sweeps (⟨[(ip, r)], n⟩, fw) = (⟨[(ip, r)], n⟩, fw) := by
  intro sweeps
  induction sweeps with
  | nil => rfl
  | cons t ts ih =>
    unfold sweepMany at ih ⊢
    rw [List.foldl_cons]
    have hstep : cleanupExpiredRules cfg t ⟨[(ip, r)], n⟩ fw = (⟨[(ip, r)], n⟩, fw) := by
      unfold cleanupExpiredRules
      rw [cleanupEntries_single_permanent cfg t ip r fw hexp]
    rw [hstep]
    exact ih

/-- A `BlockIP` call for a different address never touches the record of
`ip` (error paths leave the table alone; the success path writes only the
other key). -/
theorem blockIP_lookup_other (cfg : BlockingConfig) (st : ProviderState)
    (fw : List FirewallRule) (now : GoTime) (add : Bool) (ip2 : String) (dur : Int)
    (reason ip : String) (h : ¬ ip2 = ip) :
    lookupIP ip (blockIP cfg st fw now add ip2 dur reason).st.blockedIPs =
      lookupIP ip st.blockedIPs := by
  unfold blockIP
  by_cases h1 : (goParseIP ip2).isNone
  · simp [h1]
  · simp only [h1, Bool.false_eq_true, if_false]
    cases h2 : lookupIP ip2 st.blockedIPs with
    | some existing =>
      cases h3 : existing.isActive
      · simp only [h2, h3, Bool.false_eq_true, if_false]
        by_cases h4 : guardianRuleExists fw ip2
        · simp [h4]
        · simp only [h4, Bool.false_eq_true, if_false]
          cases add
          · simp
          · simp [lookupIP_setIP_ne ip ip2 _ h]
      · simp [h2, h3]
    | none =>
      simp only [h2, Bool.false_eq_true, if_false]
      by_cases h4 : guardianRuleExists fw ip2
      · simp [h4]
      · simp only [h4, Bool.false_eq_true, if_false]
        cases add
        · simp
        · simp [lookupIP_setIP_ne ip ip2 _ h]

theorem foldBlock_preserves_absent (cfg : BlockingConfig) (now : GoTime) (ip : String) :
    ∀ (calls : List String) (p : ProviderState × List FirewallRule),
      (∀ x ∈ calls, ¬ x = ip) → lookupIP ip p.1.blockedIPs = none →
      lookupIP ip (calls.foldl (scanBlockStep cfg now) p).1.blockedIPs = none := by
  intro calls
  induction calls with
  | nil => intro p _ h; exact h
  | cons x xs ih =>
    intro p hne h
    rw [List.foldl_cons]
    refine ih _ (fun y hy => hne y (List.mem_cons_of_mem x hy)) ?_
    unfold scanBlockStep
    rw [blockIP_lookup_other cfg p.1 p.2 now true x cfg.blockDuration _ ip
      (hne x (List.mem_cons_self x xs))]
    exact h

/-- An active record for `ip` makes `BlockIP` fail `AlreadyBlocked`. -/
theorem blockIP_already_of_active (cfg : BlockingConfig) (st : ProviderState)
    (fw : List FirewallRule) (now : GoTime) (add : Bool) (ip : String) (dur : Int)
    (reason : String) (r : BlockRecord) (h1 : (goParseIP ip).isNone = false)
    (hl : lookupIP ip st.blockedIPs = some r) (hr : r.isActive = true) :
    (blockIP cfg st fw now add ip dur reason).res = .error .ipAlreadyBlocked := by
  unfold blockIP
  simp [h1, hl, hr]

/-- A successful `BlockIP` writes exactly the fresh record under `ip`. -/
theorem blockIP_ok_state (cfg : BlockingConfig) (st : ProviderState) (fw : List FirewallRule)
    (now : GoTime) (add : Bool) (ip : String) (dur : Int) (reason : String)
    (h : (blockIP cfg st fw now add ip dur reason).res = .ok ()) :
    (blockIP cfg st fw now add ip dur reason).st.blockedIPs =
      setIP ip ⟨ip, now.wall, (if 0 < dur then some (now.wall + dur) else none),
        reason, "RDP", 1, true, none⟩ st.blockedIPs := by
  by_cases h1 : (goParseIP ip).isNone
  · unfold blockIP at h
    simp [h1] at h
  · cases hl : lookupIP ip st.blockedIPs with
    | some r =>
      cases hr : r.isActive
      · by_cases h4 : guardianRuleExists fw ip
        · unfold blockIP at h
          simp [h1, hl, hr, h4] at h
        · cases add
          · unfold blockIP at h
            simp [h1, hl, hr, h4] at h
          · unfold blockIP
            simp [h1, hl, hr, h4]
      · unfold blockIP at h
        simp [h1, hl, hr] at h
    | none =>
      by_cases h4 : guardianRuleExists fw ip
      · unfold blockIP at h
        simp [h1, hl, h4] at h
      · cases add
        · unfold blockIP at h
          simp [h1, hl, h4] at h
        · unfold blockIP
          simp [h1, hl, h4]

/-! ## Claim theorems -/

/-- C1 (counterexample).  The claim asserts that when the Manager starts
with an empty table while the firewall already holds a tagged rule for the
ip, `install` returns `AlreadyBlocked` AND adopts the rule so that
`is_blocked(ip)` is true immediately afterwards.  On the code, `BlockIP`
does return `AlreadyBlocked` but adopts nothing: the in-memory table stays
empty and `IsBlocked` still answers false. -/
theorem c1_counterexample :
    (blockIP defaultBlockingCfg ⟨[], 0⟩ preseededFw ⟨0, 0⟩ true "198.51.100.9"
        3600000000000 "scan").res = .error .ipAlreadyBlocked ∧
    (blockIP defaultBlockingCfg ⟨[], 0⟩ preseededFw ⟨0, 0⟩ true "198.51.100.9"
        3600000000000 "scan").st.blockedIPs = [] ∧
    isBlocked (blockIP defaultBlockingCfg ⟨[], 0⟩ preseededFw ⟨0, 0⟩ true "198.51.100.9"
        3600000000000 "scan").st 0 "198.51.100.9" = false := by
  decide

/-- C1 (amended).  If the Manager starts with an empty in-memory block
table while the host firewall already holds a rule whose description
contains the rule tag and whose remote-IP set includes `ip`, then a fresh
`install(ip, ...)` returns `AlreadyBlocked` but does not adopt the rule:
the table is left unchanged and `is_blocked(ip)` remains false. -/
theorem c1_no_adoption (cfg : BlockingConfig) (fw : List FirewallRule) (now : GoTime)
    (addSucceeds : Bool) (ip : String) (dur : Int) (reason : String)
    (hip : (goParseIP ip).isSome = true) (hfw : guardianRuleExists fw ip = true) :
    (blockIP cfg ⟨[], 0⟩ fw now addSucceeds ip dur reason).res = .error .ipAlreadyBlocked ∧
    (blockIP cfg ⟨[], 0⟩ fw now addSucceeds ip dur reason).st = ⟨[], 0⟩ ∧
    ∀ t, isBlocked (blockIP cfg ⟨[], 0⟩ fw now addSucceeds ip dur reason).st t ip = false := by
  have h1 : (goParseIP ip).isNone = false := by
    cases hg : goParseIP ip
    · rw [hg] at hip
      simp at hip
    · rfl
  have hblk : blockIP cfg ⟨[], 0⟩ fw now addSucceeds ip dur reason =
      ⟨.error .ipAlreadyBlocked, ⟨[], 0⟩, fw⟩ := by
    unfold blockIP
    simp [h1, lookupIP, hfw]
  rw [hblk]
  exact ⟨rfl, rfl, fun t => by unfold isBlocked; simp [lookupIP]⟩

/-- C1 (witness for the amended theorem), on the S4 seed state. -/
theorem c1_no_adoption_witness :
    (blockIP defaultBlockingCfg ⟨[], 0⟩ preseededFw ⟨0, 0⟩ true "198.51.100.9" 0 "r").res
      = .error .ipAlreadyBlocked ∧
    isBlocked (blockIP defaultBlockingCfg ⟨[], 0⟩ preseededFw ⟨0, 0⟩ true "198.51.100.9"
      0 "r").st 0 "198.51.100.9" = false := by
  obtain ⟨h1, -, h3⟩ := c1_no_adoption defaultBlockingCfg preseededFw ⟨0, 0⟩ true
    "198.51.100.9" 0 "r" (by decide) (by decide)
  exact ⟨h1, h3 0⟩

/-- C2 (code bug).  `BlockIP` creates the rule under the name generated at
install time, but neither `BlockRecord` nor anything else stores that name;
`cleanupExpiredRules` and `UnblockIP` regenerate the name at deletion time,
and with the default template (which contains `\x7btimestamp\x7d`) the
regenerated name differs from the created one whenever the wall-clock
second has changed.  Concretely: install at 1970-01-01T00:00:00Z with a
60 s duration and sweep at T+180 s.  The sweeper's delete targets a name
that never existed, the delete fails, the firewall rule survives the sweep
and the record stays active (`is_blocked` answers false only because of the
expiry test); an explicit remove fails the same way. -/
theorem c2_rule_name_regenerated :
    c2InstallStep.res = .ok () ∧
    c2InstallStep.fw =
      [⟨"Guardian - 19700101000000 - 203.0.113.5", blockRuleDescription, ["203.0.113.5"]⟩] ∧
    generateRuleName defaultBlockingCfg "203.0.113.5" "RDP" c2SweepTime
      = "Guardian - 19700101000300 - 203.0.113.5" ∧
    ¬ generateRuleName defaultBlockingCfg "203.0.113.5" "RDP" c2SweepTime
      = "Guardian - 19700101000000 - 203.0.113.5" ∧
    c2SweepOut.2 = c2InstallStep.fw ∧
    (lookupIP "203.0.113.5" c2SweepOut.1.blockedIPs).map (fun r => r.isActive) = some true ∧
    isBlocked c2SweepOut.1 180000000000 "203.0.113.5" = false ∧
    (unblockIP defaultBlockingCfg c2InstallStep.st c2InstallStep.fw c2SweepTime
      "203.0.113.5").res = .error .firewallOperation := by
  decide

/-- C4 (confirmed).  The lower bound `queryRecentEvents` embeds in the
wevtutil filter is rendered from the UTC fields of the instant (offset
zero) with a literal trailing `Z`, and the emitted filter depends only on
the absolute instant, never on the host timezone offset. -/
theorem c4_utc_query_bound :
    (∀ t : GoTime, sinceStringOf t = formatQueryTimeNoZ ⟨t.wall, 0⟩ ++ "Z") ∧
    (∀ t1 t2 : GoTime, t1.wall = t2.wall → wevtutilQueryFilter t1 = wevtutilQueryFilter t2) := by
  constructor
  · intro t
    rfl
  · intro t1 t2 h
    unfold wevtutilQueryFilter sinceStringOf GoTime.utc
    rw [h]

/-- C4 (witness): the instant 2023-11-14T22:13:20Z viewed from a +06:00
host renders identically to the same instant at UTC, with the `Z`
suffix. -/
theorem c4_utc_query_bound_witness :
    wevtutilQueryFilter ⟨1700000000000000000, 21600⟩ =
      wevtutilQueryFilter ⟨1700000000000000000, 0⟩ ∧
    sinceStringOf ⟨1700000000000000000, 21600⟩ = "2023-11-14T22:13:20.000Z" :=
  ⟨c4_utc_query_bound.2 ⟨1700000000000000000, 21600⟩ ⟨1700000000000000000, 0⟩ rfl, by decide⟩

/-- C5 (confirmed).  When the external add-rule command fails, `BlockIP`
returns the firewall-operation error and changes nothing: no record is
written, `totalBlocks` is not advanced, the firewall state is untouched,
and `IsBlocked` still answers false at every instant. -/
theorem c5_firewall_failure_atomic (cfg : BlockingConfig) (st : ProviderState)
    (fw : List FirewallRule) (now : GoTime) (ip : String) (dur : Int) (reason : String)
    (hip : (goParseIP ip).isSome = true)
    (hact : ∀ r, lookupIP ip st.blockedIPs = some r → r.isActive = false)
    (hfw : guardianRuleExists fw ip = false) :
    (blockIP cfg st fw now false ip dur reason).res = .error .firewallOperation ∧
    (blockIP cfg st fw now false ip dur reason).st = st ∧
    (blockIP cfg st fw now false ip dur reason).fw = fw ∧
    ∀ t, isBlocked (blockIP cfg st fw now false ip dur reason).st t ip = false := by
  have h1 : (goParseIP ip).isNone = false := by
    cases hg : goParseIP ip
    · rw [hg] at hip
      simp at hip
    · rfl
  have hblk : blockIP cfg st fw now false ip dur reason =
      ⟨.error .firewallOperation, st, fw⟩ := by
    unfold blockIP
    cases hl : lookupIP ip st.blockedIPs with
    | none => simp [h1, hl, hfw]
    | some r => simp [h1, hl, hfw, hact r hl]
  rw [hblk]
  refine ⟨rfl, rfl, rfl, fun t => ?_⟩
  unfold isBlocked
  cases hl : lookupIP ip st.blockedIPs with
  | none => rfl
  | some r =>
    have hr := hact r hl
    cases hre : r.expiresAt <;> simp [hre, hr]

/-- C5 (witness): a failing add on a fresh provider. -/
theorem c5_firewall_failure_atomic_witness :
    (blockIP defaultBlockingCfg ⟨[], 0⟩ [] ⟨0, 0⟩ false "203.0.113.6" 60000000000 "r").res
      = .error .firewallOperation ∧
    (blockIP defaultBlockingCfg ⟨[], 0⟩ [] ⟨0, 0⟩ false "203.0.113.6" 60000000000 "r").st
      = ⟨[], 0⟩ ∧
    isBlocked (blockIP defaultBlockingCfg ⟨[], 0⟩ [] ⟨0, 0⟩ false "203.0.113.6"
      60000000000 "r").st 0 "203.0.113.6" = false := by
  obtain ⟨h1, h2, -, h4⟩ := c5_firewall_failure_atomic defaultBlockingCfg ⟨[], 0⟩ [] ⟨0, 0⟩
    "203.0.113.6" 60000000000 "r" (by decide) (fun r h => by simp [lookupIP] at h) (by decide)
  exact ⟨h1, h2, h4 0⟩

set_option maxRecDepth 8000 in
/-- C3 (counterexample).  The very same event record — identical source IP,
identical timestamp text, identical username, indeed the identical block
string — appearing twice in one query output is counted twice: there is no
deduplication on `(source_ip, timestamp, username)` anywhere in the
pipeline. -/
theorem c3_counterexample :
    goSplit dupOutput "Event[" = ["", sampleBlock, sampleBlock] ∧
    (parseLine sampleBlock).map (fun a => (a.ip, a.timestampText, a.username)) =
      some ("198.51.100.7", some "2024-01-01T00:00:00.000000000Z", "intruder") ∧
    attackCount (goSplit dupOutput "Event[") "198.51.100.7" = 2 := by
  decide

/-- C3 (amended).  The counter performs no deduplication at all: a scan's
per-IP count equals the number of occurrences of qualifying blocks in that
scan's output (each occurrence counts, even if another occurrence carries
the same source IP, timestamp and username), the scan of a concatenation is
the concatenation of the scans (counts are recomputed per query, never
accumulated across queries), and appending one more copy of a qualifying
block always raises the count by one. -/
theorem c3_no_dedup (ip : String) :
    (∀ blocks : List String, attackCount blocks ip = blocks.countP (countsAsAttack ip)) ∧
    (∀ b1 b2 : List String, scanIPs (b1 ++ b2) = scanIPs b1 ++ scanIPs b2) ∧
    (∀ (blocks : List String) (b : String), countsAsAttack ip b = true →
      attackCount (blocks ++ [b]) ip = attackCount blocks ip + 1) := by
  refine ⟨scanIPs_count_eq_countP ip, scanIPs_append, ?_⟩
  intro blocks b h
  unfold attackCount
  rw [scanIPs_count_eq_countP, scanIPs_count_eq_countP, List.countP_append]
  simp [List.countP_cons, h]

/-- C3 (witness for the amended theorem): appending a second copy of the
sample record raises the count from 1 to 2. -/
theorem c3_no_dedup_witness :
    countsAsAttack "198.51.100.7" sampleBlock = true ∧
    attackCount (["", sampleBlock] ++ [sampleBlock]) "198.51.100.7" =
      attackCount ["", sampleBlock] "198.51.100.7" + 1 :=
  ⟨by decide, (c3_no_dedup "198.51.100.7").2.2 ["", sampleBlock] sampleBlock (by decide)⟩

/-- C6 (counterexample).  A record that is expired (expiry instant 100,
call instant 200, so `IsBlocked` already answers false) but still carries
`IsActive = true` because no sweep has run yet still makes `BlockIP` fail
with `AlreadyBlocked`, although no tagged firewall rule exists: the claim's
"an expired but not-yet-swept record does not cause AlreadyBlocked" is
false on the code, which tests only the active flag and never the
expiry. -/
theorem c6_counterexample :
    expiredActiveRecord.isActive = true ∧
    expiredActiveRecord.expiresAt = some 100 ∧
    guardianRuleExists [] "203.0.113.7" = false ∧
    isBlocked ⟨[("203.0.113.7", expiredActiveRecord)], 1⟩ 200 "203.0.113.7" = false ∧
    (blockIP defaultBlockingCfg ⟨[("203.0.113.7", expiredActiveRecord)], 1⟩ [] ⟨200, 0⟩ true
      "203.0.113.7" 0 "again").res = .error .ipAlreadyBlocked := by
  decide

/-- C6 (amended).  Assuming the firewall holds no tagged rule for the valid
address `ip`: `install(ip, ...)` fails with `AlreadyBlocked` if and only if
the in-memory record for `ip` exists with its active flag set — regardless
of whether that record is expired; and after one successful install every
further install for `ip` returns `AlreadyBlocked`, so at most one install
succeeds while the record stays active. -/
theorem c6_already_blocked_iff_active (cfg : BlockingConfig) (st : ProviderState)
    (fw : List FirewallRule) (now : GoTime) (addSucceeds : Bool) (ip : String) (dur : Int)
    (reason : String) (hip : (goParseIP ip).isSome = true)
    (hfw : guardianRuleExists fw ip = false) :
    ((blockIP cfg st fw now addSucceeds ip dur reason).res = .error .ipAlreadyBlocked ↔
      ∃ r, lookupIP ip st.blockedIPs = some r ∧ r.isActive = true) ∧
    ((blockIP cfg st fw now addSucceeds ip dur reason).res = .ok () →
      ∀ (fw2 : List FirewallRule) (now2 : GoTime) (add2 : Bool) (dur2 : Int) (rsn2 : String),
        (blockIP cfg (blockIP cfg st fw now addSucceeds ip dur reason).st fw2 now2 add2 ip
          dur2 rsn2).res = .error .ipAlreadyBlocked) := by
  have h1 : (goParseIP ip).isNone = false := by
    cases hg : goParseIP ip
    · rw [hg] at hip
      simp at hip
    · rfl
  constructor
  · constructor
    · intro h
      cases hl : lookupIP ip st.blockedIPs with
      | none =>
        exfalso
        unfold blockIP at h
        simp [h1, hl, hfw] at h
        cases addSucceeds <;> simp at h
      | some r =>
        cases hr : r.isActive
        · exfalso
          unfold blockIP at h
          simp [h1, hl, hr, hfw] at h
          cases addSucceeds <;> simp at h
        · exact ⟨r, rfl, hr⟩
    · rintro ⟨r, hl, hr⟩
      exact blockIP_already_of_active cfg st fw now addSucceeds ip dur reason r h1 hl hr
  · intro hok fw2 now2 add2 dur2 rsn2
    have hst := blockIP_ok_state cfg st fw now addSucceeds ip dur reason hok
    have hlk : lookupIP ip (blockIP cfg st fw now addSucceeds ip dur reason).st.blockedIPs =
        some ⟨ip, now.wall, (if 0 < dur then some (now.wall + dur) else none),
          reason, "RDP", 1, true, none⟩ := by
      rw [hst]
      exact lookupIP_setIP_self ip _ _
    exact blockIP_already_of_active cfg _ fw2 now2 add2 ip dur2 rsn2 _ h1 hlk rfl

/-- C6 (witness for the amended theorem): the expired-but-active record
produces `AlreadyBlocked` through the backward direction of the
equivalence. -/
theorem c6_already_blocked_iff_active_witness :
    (blockIP defaultBlockingCfg ⟨[("203.0.113.7", expiredActiveRecord)], 1⟩ [] ⟨200, 0⟩ true
      "203.0.113.7" 60000000000 "again").res = .error .ipAlreadyBlocked :=
  (c6_already_blocked_iff_active defaultBlockingCfg ⟨[("203.0.113.7", expiredActiveRecord)], 1⟩
    [] ⟨200, 0⟩ true "203.0.113.7" 60000000000 "again" (by decide) (by decide)).1.mpr
    ⟨expiredActiveRecord, by decide, by decide⟩

/-- C7 (confirmed).  A whitelisted address never reaches `BlockIP` from the
scan pipeline: the whitelist test sits in front of the call inside the
threshold loop, so the address is never among the block calls of any scan,
and folding any scan over the provider leaves a previously unblocked
whitelisted address unblocked. -/
theorem c7_whitelist_suppresses (cfg : BlockingConfig) (ip : String)
    (hwl : isWhitelistedIP cfg ip = true) :
    (∀ blocks : List String, ip ∉ scanBlockCalls cfg blocks) ∧
    (∀ (now : GoTime) (st : ProviderState) (fw : List FirewallRule) (output : String),
      lookupIP ip st.blockedIPs = none →
        lookupIP ip (runScanBlocks cfg now st fw output).1.blockedIPs = none ∧
        ∀ t, isBlocked (runScanBlocks cfg now st fw output).1 t ip = false) := by
  have hmem : ∀ blocks : List String, ip ∉ scanBlockCalls cfg blocks := by
    intro blocks hmem
    unfold scanBlockCalls at hmem
    rw [List.mem_filter] at hmem
    have h2 := hmem.2
    simp only [decide_eq_true_eq] at h2
    exact h2.2 hwl
  refine ⟨hmem, ?_⟩
  intro now st fw output h
  have habs : lookupIP ip (runScanBlocks cfg now st fw output).1.blockedIPs = none := by
    unfold runScanBlocks
    refine foldBlock_preserves_absent cfg now ip _ (st, fw) ?_ h
    intro x hx hxe
    exact hmem _ (hxe ▸ hx)
  refine ⟨habs, fun t => ?_⟩
  unfold isBlocked
  rw [habs]

set_option maxRecDepth 8000 in
/-- C7 (witness): 10.0.0.7 matches the default whitelist entry 10.0.0.0/8;
an output holding four failure events from it is counted past the
threshold, yet the address is not among the scan's block calls. -/
theorem c7_whitelist_suppresses_witness :
    isWhitelistedIP defaultBlockingCfg "10.0.0.7" = true ∧
    3 ≤ attackCount (goSplit wlOutput "Event[") "10.0.0.7" ∧
    "10.0.0.7" ∉ scanBlockCalls defaultBlockingCfg (goSplit wlOutput "Event[") :=
  ⟨by decide, by decide,
    (c7_whitelist_suppresses defaultBlockingCfg "10.0.0.7" (by decide)).1 _⟩

/-- C8 (counterexample).  `ParseLine` validates nothing beyond the
digits-and-dots shape of the source-address capture: the record carrying
`Source Network Address: 1.2.3.999` is not dropped but produces an event
whose source IP `1.2.3.999` does not parse as an IP address (`net.ParseIP`
rejects the octet 999), refuting both the claim's "unparseable ⇒ dropped"
and its consequence "every produced source_ip parses". -/
theorem c8_counterexample :
    parseLine badIPLine = some ⟨"1.2.3.999", "RDP", "eve", .low, none⟩ ∧
    goParseIP "1.2.3.999" = none := by
  decide

/-- C8 (amended).  `parse(raw)` returns `None` exactly when the record has
no `Event ID: <digits>` capture, or the captured number is not 4625, or the
pattern `Source Network Address:` followed by a run of digits and dots has
no match, or that captured run equals `127.0.0.1`.  The sentinels `-`,
`::1` and the empty string of the original claim are unreachable — the
capture is always a nonempty digits-and-dots string — and a produced
event's source IP is exactly that capture: a nonempty digits-and-dots
string that need not parse as a valid IP address. -/
theorem c8_drop_characterization (line : String) :
    (parseLine line = none ↔
      ¬ (eventIDField line = some 4625 ∧
         ∃ s, sourceAddrField line = some s ∧ ¬ s = "127.0.0.1")) ∧
    (∀ s, sourceAddrField line = some s →
      ¬ s = "" ∧ ¬ s = "-" ∧ ¬ s = "::1" ∧ ¬ s.data = [] ∧ ∀ c ∈ s.data, isDigitDot c = true) ∧
    (∀ a, parseLine line = some a → sourceAddrField line = some a.ip) := by
  have hsent : ∀ s, sourceAddrField line = some s →
      ¬ s = "" ∧ ¬ s = "-" ∧ ¬ s = "::1" ∧ ¬ s.data = [] ∧ ∀ c ∈ s.data, isDigitDot c = true := by
    intro s hs
    obtain ⟨hne, hall⟩ := sourceAddrField_shape line s hs
    refine ⟨?_, ?_, ?_, hne, hall⟩
    · rintro rfl
      exact hne rfl
    · rintro rfl
      have h := hall '-' (by decide)
      revert h
      decide
    · rintro rfl
      have h := hall ':' (by decide)
      revert h
      decide
  refine ⟨?_, hsent, ?_⟩
  · unfold parseLine
    cases heid : eventIDField line with
    | none => simp
    | some eid =>
      by_cases h45 : eid = 4625
      · subst h45
        simp only [not_true_eq_false, if_false]
        cases hsrc : sourceAddrField line with
        | none => simp
        | some s =>
          obtain ⟨hs1, hs2, hs3, -, -⟩ := hsent s hsrc
          by_cases hs : s = "127.0.0.1"
          · subst hs
            simp [hs1, hs2, hs3]
          · simp [hs1, hs2, hs3, hs]
      · simp [h45]
  · intro a ha
    unfold parseLine at ha
    cases heid : eventIDField line with
    | none =>
      rw [heid] at ha
      exact absurd ha (by simp)
    | some eid =>
      simp only [heid] at ha
      by_cases h45 : eid = 4625
      · subst h45
        rw [if_neg (by simp)] at ha
        cases hsrc : sourceAddrField line with
        | none =>
          simp only [hsrc] at ha
          exact absurd ha (by simp)
        | some s =>
          simp only [hsrc] at ha
          by_cases hcond : s = "" ∨ s = "-" ∨ s = "127.0.0.1" ∨ s = "::1"
          · rw [if_pos hcond] at ha
            exact absurd ha (by simp)
          · rw [if_neg hcond] at ha
            simp only [Option.some.injEq] at ha
            rw [← ha]
      · rw [if_pos h45] at ha
        exact absurd ha (by simp)

/-- C8 (witness for the amended theorem): the loopback record is dropped —
its event ID is 4625 and its capture exists, but the capture is exactly
`127.0.0.1` — and the capture of the bad-IP record is a nonempty
digits-and-dots string distinct from every sentinel. -/
theorem c8_drop_characterization_witness :
    parseLine loopbackLine = none ∧
    (¬ ("1.2.3.999" : String) = "" ∧ ¬ ("1.2.3.999" : String) = "-" ∧
      ¬ ("1.2.3.999" : String) = "::1") := by
  constructor
  · refine (c8_drop_characterization loopbackLine).1.mpr ?_
    rintro ⟨-, s, hs, hne⟩
    have he : sourceAddrField loopbackLine = some "127.0.0.1" := by decide
    rw [he] at hs
    cases hs
    exact hne rfl
  · obtain ⟨h1, h2, h3, -, -⟩ :=
      (c8_drop_characterization badIPLine).2.1 "1.2.3.999" (by decide)
    exact ⟨h1, h2, h3⟩

/-- C9 (counterexample).  The `-` account-name marker is normalized to the
literal `system_account`, not to the claim's sentinel `system`. -/
theorem c9_counterexample :
    (parseLine dashUserLine).map (fun a => a.username) = some "system_account" ∧
    ¬ (parseLine dashUserLine).map (fun a => a.username) = some "system" := by
  decide

/-- C9 (amended).  For every record the parser accepts: when the extracted
account name is `-`, empty, or ends with `$`, the event's username is the
sentinel `system_account` (the empty case is in fact unreachable, since the
capture is a nonempty run of non-whitespace characters); otherwise the
username is the extracted name unchanged, and when no account-name capture
exists at all it is `unknown`. -/
theorem c9_username_normalization (line : String) :
    (∀ a, parseLine line = some a →
      (∀ u, accountNameField line = some u →
        ((u = "-" ∨ u = "" ∨ listEndsWith "$".data u.data) → a.username = "system_account") ∧
        (¬ (u = "-" ∨ u = "" ∨ listEndsWith "$".data u.data) → a.username = u)) ∧
      (accountNameField line = none → a.username = "unknown")) ∧
    (∀ u, accountNameField line = some u → ¬ u = "") := by
  constructor
  · intro a ha
    unfold parseLine at ha
    cases heid : eventIDField line with
    | none =>
      rw [heid] at ha
      exact absurd ha (by simp)
    | some eid =>
      simp only [heid] at ha
      by_cases h45 : eid = 4625
      · subst h45
        rw [if_neg (by simp)] at ha
        cases hsrc : sourceAddrField line with
        | none =>
          simp only [hsrc] at ha
          exact absurd ha (by simp)
        | some s =>
          simp only [hsrc] at ha
          by_cases hcond : s = "" ∨ s = "-" ∨ s = "127.0.0.1" ∨ s = "::1"
          · rw [if_pos hcond] at ha
            exact absurd ha (by simp)
          · rw [if_neg hcond] at ha
            simp only [Option.some.injEq] at ha
            rw [← ha]
            constructor
            · intro u hu
              simp only [hu]
              constructor
              · intro hnorm
                simp [if_pos hnorm]
              · intro hnorm
                simp [if_neg hnorm]
            · intro hnone
              simp only [hnone]
      · rw [if_pos h45] at ha
        exact absurd ha (by simp)
  · intro u hu
    obtain ⟨hne, -⟩ := accountNameField_shape line u hu
    rintro rfl
    exact hne rfl

/-- C9 (witness for the amended theorem): the machine-account record
(`SERVER01$`) parses with username `system_account`. -/
theorem c9_username_normalization_witness :
    parseLine machineUserLine = some machineUserAttempt ∧
    machineUserAttempt.username = "system_account" := by
  refine ⟨by decide, ?_⟩
  have h := ((c9_username_normalization machineUserLine).1 machineUserAttempt (by decide)).1
    "SERVER01$" (by decide)
  exact h.1 (Or.inr (Or.inr (by decide)))

/-- C10 (confirmed).  An install with a non-positive duration (zero or
negative) records a permanent block: the record carries no expiry, every
sequence of sweeper runs leaves the record in place with `is_blocked`
answering true at every instant, and on a fresh provider sweeps leave the
provider and firewall state entirely untouched, so only an explicit remove
could ever clear the block. -/
theorem c10_permanent_block (cfg : BlockingConfig) (st : ProviderState)
    (fw : List FirewallRule) (now : GoTime) (ip : String) (dur : Int) (reason : String)
    (hdur : dur ≤ 0) (hip : (goParseIP ip).isSome = true)
    (hact : ∀ r, lookupIP ip st.blockedIPs = some r → r.isActive = false)
    (hfw : guardianRuleExists fw ip = false) :
    (blockIP cfg st fw now true ip dur reason).res = .ok () ∧
    (∃ rec, lookupIP ip (blockIP cfg st fw now true ip dur reason).st.blockedIPs = some rec ∧
      rec.expiresAt = none ∧ rec.isActive = true ∧
      ∀ sweeps : List GoTime,
        lookupIP ip (sweepMany cfg sweeps ((blockIP cfg st fw now true ip dur reason).st,
          (blockIP cfg st fw now true ip dur reason).fw)).1.blockedIPs = some rec ∧
        ∀ t, isBlocked (sweepMany cfg sweeps ((blockIP cfg st fw now true ip dur reason).st,
          (blockIP cfg st fw now true ip dur reason).fw)).1 t ip = true) ∧
    (st.blockedIPs = [] →
      ∀ sweeps : List GoTime,
        sweepMany cfg sweeps ((blockIP cfg st fw now true ip dur reason).st,
          (blockIP cfg st fw now true ip dur reason).fw) =
        ((blockIP cfg st fw now true ip dur reason).st,
          (blockIP cfg st fw now true ip dur reason).fw)) := by
  have hnotpos : ¬ 0 < dur := by omega
  have h1 : (goParseIP ip).isNone = false := by
    cases hg : goParseIP ip
    · rw [hg] at hip
      simp at hip
    · rfl
  have hblk : blockIP cfg st fw now true ip dur reason =
      ⟨.ok (), ⟨setIP ip ⟨ip, now.wall, none, reason, "RDP", 1, true, none⟩ st.blockedIPs,
        st.totalBlocks + 1⟩,
        fw ++ [⟨generateRuleName cfg ip "RDP" now, blockRuleDescription, [ip]⟩]⟩ := by
    unfold blockIP
    cases hl : lookupIP ip st.blockedIPs with
    | none => simp [h1, hfw, hnotpos]
    | some r => simp [h1, hfw, hnotpos, hact r hl]
  rw [hblk]
  refine ⟨rfl, ?_, ?_⟩
  · refine ⟨⟨ip, now.wall, none, reason, "RDP", 1, true, none⟩,
      lookupIP_setIP_self ip _ _, rfl, rfl, ?_⟩
    intro sweeps
    have hlk := sweepMany_permanent cfg ip ⟨ip, now.wall, none, reason, "RDP", 1, true, none⟩
      rfl sweeps
      (⟨setIP ip ⟨ip, now.wall, none, reason, "RDP", 1, true, none⟩ st.blockedIPs,
        st.totalBlocks + 1⟩,
        fw ++ [⟨generateRuleName cfg ip "RDP" now, blockRuleDescription, [ip]⟩])
      (lookupIP_setIP_self ip _ _)
    exact ⟨hlk, fun t => isBlocked_of_permanent_active _ ip _ hlk rfl rfl t⟩
  · intro hemp sweeps
    rw [hemp]
    simp only [setIP]
    exact sweepMany_single_permanent cfg ip ⟨ip, now.wall, none, reason, "RDP", 1, true, none⟩
      (st.totalBlocks + 1) _ rfl sweeps

/-- C10 (witness): a permanent block of 203.0.113.8 installed at the epoch
survives a sweep one year later. -/
theorem c10_permanent_block_witness :
    (blockIP defaultBlockingCfg ⟨[], 0⟩ [] ⟨0, 0⟩ true "203.0.113.8" 0 "r").res = .ok () ∧
    isBlocked (sweepMany defaultBlockingCfg [⟨31536000000000000, 0⟩]
      ((blockIP defaultBlockingCfg ⟨[], 0⟩ [] ⟨0, 0⟩ true "203.0.113.8" 0 "r").st,
       (blockIP defaultBlockingCfg ⟨[], 0⟩ [] ⟨0, 0⟩ true "203.0.113.8" 0 "r").fw)).1
      31536000000000000 "203.0.113.8" = true := by
  obtain ⟨hres, ⟨rec, -, -, -, hsw⟩, -⟩ := c10_permanent_block defaultBlockingCfg ⟨[], 0⟩ []
    ⟨0, 0⟩ "203.0.113.8" 0 "r" (by decide) (by decide)
    (fun r h => by simp [lookupIP] at h) (by decide)
  exact ⟨hres, (hsw [⟨31536000000000000, 0⟩]).2 31536000000000000⟩

end Guardian
